import Mathlib

/-!
Shallow embedding of `odevalidator/__init__.py` (ode-output-validator-library).

Records are JSON values deserialized by `json.loads`; Python's `None` and JSON
`null` are the same runtime object, modelled by the single constructor
`JValue.null`.  Python exceptions are modelled by the `PyError` type and
fallible operations return `Except PyError _`.  The mutable instance attribute
`Field.previous_value` is modelled by explicit state passing: `Field.validate`
returns the updated `Field` alongside the `ValidationResult`.

Model boundaries (each noted where it occurs): `dateutil.parser.parse` is an
external collaborator and is a parameter of `Field.validate`; Python `float`s
are carried as exact rationals (no claim exercises IEEE rounding); `repr` of
strings does not escape special characters (no claim exercises that).
-/

/-- A Python value as produced by `json.loads`: JSON objects become `dict`s
(association list, last duplicate key wins on lookup), arrays become `list`s,
and `null` becomes `None` (`JValue.null`).  Non-integral JSON numbers become
Python `float`s, modelled as the exact rational value of the decimal literal
(no claim exercises IEEE-754 rounding of the literal). -/
inductive JValue where
  | obj : List (String × JValue) → JValue
  | arr : List JValue → JValue
  | str : String → JValue
  | int : Int → JValue
  | float : Rat → JValue
  | bool : Bool → JValue
  | null : JValue

/-- Python exceptions that the validator code can raise. -/
inductive PyError where
  /-- The library's own `ValidatorException`, carrying its message. -/
  | validatorException : String → PyError
  /-- `decimal.InvalidOperation`, raised by `Decimal(text)` on bad numeric text. -/
  | invalidOperation : PyError
  /-- `TypeError` (bad operand type, unsubscriptable, unformattable, ...). -/
  | typeError : PyError
  /-- `ValueError`, raised by `int(text)` on bad integer text. -/
  | valueError : PyError
  /-- `json.JSONDecodeError`, raised by `json.loads` on malformed input. -/
  | jsonDecodeError : PyError
  /-- `KeyError`, raised by `dict[k]` on a missing key. -/
  | keyError : String → PyError
  /-- `AttributeError`, raised by `x.get(...)` when `x` is not a `dict`. -/
  | attributeError : PyError
deriving DecidableEq, Repr

/-- `dict.get` / JSON-object lookup: the value stored at key `k`.  A JSON
object with duplicate keys keeps the last occurrence, hence the lookup
prefers the rightmost binding. -/
def assocGet : List (String × JValue) → String → Option JValue
  | [], _ => none
  | (k', v) :: rest, k =>
    match assocGet rest k with
    | some w => some w
    | none => if k' = k then some v else none

/-- Left brace character, `"\x7b"`. -/
def lbraceChar : Char := Char.ofNat 123

/-- Right brace character, `"\x7d"`. -/
def rbraceChar : Char := Char.ofNat 125

mutual
/-- Python `repr` of a deserialized JSON value: dict/list display with
single-quoted strings, `True`/`False`/`None`.  `repr` of a string is modelled
without escaping of quotes or control characters, and `repr` of a `float` is
rendered from the exact rational (Python prints the shortest roundtripping
decimal of the IEEE double); no claim depends on either corner. -/
def pyRepr : JValue → String
  | .obj m => "\x7b" ++ pyReprMembers m ++ "\x7d"
  | .arr xs => "[" ++ pyReprElems xs ++ "]"
  | .str s => "'" ++ s ++ "'"
  | .int i => toString i
  | .float q => toString q.num ++ "/" ++ toString q.den
  | .bool b => if b then "True" else "False"
  | .null => "None"

/-- Comma-joined `'key': repr(value)` members of a dict display. -/
def pyReprMembers : List (String × JValue) → String
  | [] => ""
  | [(k, v)] => "'" ++ k ++ "': " ++ pyRepr v
  | (k, v) :: rest => "'" ++ k ++ "': " ++ pyRepr v ++ ", " ++ pyReprMembers rest

/-- Comma-joined `repr(value)` elements of a list display. -/
def pyReprElems : List JValue → String
  | [] => ""
  | [v] => pyRepr v
  | v :: rest => pyRepr v ++ ", " ++ pyReprElems rest
end

/-- Python `str()`: like `repr` except that a top-level string is rendered
without quotes. -/
def pyStr : JValue → String
  | .str s => s
  | v => pyRepr v

/-- One step of the extraction loop, `value = value.get(key)`: on a `dict`
it returns the stored value (`None` when the key is absent, and a stored JSON
`null` already *is* `None`); on any other value — including `None` — `.get`
does not exist and an `AttributeError` is raised. -/
def pyGetStep : JValue → String → Except PyError JValue
  | .obj m, k => .ok ((assocGet m k).getD .null)
  | _, _ => .error .attributeError

/-- The `for key in path_keys: value = value.get(key)` loop of
`Field._get_field_value`. -/
def getPath : JValue → List String → Except PyError JValue
  | v, [] => .ok v
  | v, k :: ks =>
    match pyGetStep v k with
    | .error e => .error e
    | .ok w => getPath w ks

/-- Truncation toward zero, i.e. Python `int()` on an exact rational. -/
def ratTrunc (q : Rat) : Int := q.num.tdiv q.den

/-- `"%d" % x` for a `Decimal` operand: formats the integer part (truncated
toward zero). -/
def fmtDec (q : Rat) : String := toString (ratTrunc q)

/-- `"%d" % field_value` on a raw value: integers (and `bool`s, which are
integers in Python) format directly, floats truncate toward zero, anything
else raises `TypeError`. -/
def fmtD : JValue → Except PyError String
  | .int i => .ok (toString i)
  | .float q => .ok (toString (ratTrunc q))
  | .bool b => .ok (if b then "1" else "0")
  | _ => .error .typeError

/-- Digit list to natural number. -/
def digitsVal (ds : List Char) : Nat :=
  ds.foldl (fun a c => a * 10 + (c.toNat - 48)) 0

/-- Whitespace characters stripped by Python's `str.strip()` (the ASCII
ones; no configuration in play uses exotic unicode spacing). -/
def pyWsChar (c : Char) : Bool :=
  c = ' ' ∨ c = '\t' ∨ c = '\n' ∨ c = '\r' ∨ c = '\x0b' ∨ c = '\x0c'

/-- Python `str.strip()` on a character list. -/
def pyStrip (cs : List Char) : List Char :=
  ((cs.dropWhile pyWsChar).reverse.dropWhile pyWsChar).reverse

/-- Python `str.split(sep)` for a one-character separator, on character
lists: splitting the empty string gives one empty part, and adjacent
separators give empty parts. -/
def pySplitChar (sep : Char) : List Char → List (List Char)
  | [] => [[]]
  | c :: rest =>
    let r := pySplitChar sep rest
    if c = sep then [] :: r
    else
      match r with
      | [] => [[c]]
      | g :: gs => (c :: g) :: gs

/-- `self.path.split(".")` (source line 49). -/
def pathSplit (s : String) : List String :=
  (pySplitChar '.' s.data).map (fun g => String.mk g)

/-- Parse the text accepted by `decimal.Decimal(str)` into its exact rational
value: optional surrounding whitespace, optional sign, digits with at most one
decimal point (at least one digit overall), and an optional decimal exponent.
The special values `NaN`/`Infinity` that `Decimal` also accepts are outside
the model (no claim and no configuration in play uses them; arithmetic
comparisons with them raise in Python anyway). -/
def parseDecimal (s : String) : Option Rat :=
  let cs := pyStrip s.data
  let (sign, cs) :=
    match cs with
    | '-' :: rest => ((-1 : Int), rest)
    | '+' :: rest => ((1 : Int), rest)
    | _ => ((1 : Int), cs)
  let (ipart, cs) := cs.span Char.isDigit
  let (fpart, cs) :=
    match cs with
    | '.' :: rest => rest.span Char.isDigit
    | _ => ([], cs)
  if ipart.isEmpty ∧ fpart.isEmpty then none
  else
    let mantissa : Int := sign * (digitsVal (ipart ++ fpart) : Int)
    match cs with
    | [] => some (mkRat mantissa (10 ^ fpart.length))
    | e :: rest =>
      if e = 'e' ∨ e = 'E' then
        let (esign, rest) :=
          match rest with
          | '-' :: r => ((-1 : Int), r)
          | '+' :: r => ((1 : Int), r)
          | _ => ((1 : Int), rest)
        let (edigits, rest) := rest.span Char.isDigit
        if edigits.isEmpty ∨ ¬ rest.isEmpty then none
        else
          let texp : Int := esign * (digitsVal edigits : Int) - (fpart.length : Int)
          if 0 ≤ texp then some (mkRat (mantissa * 10 ^ texp.toNat) 1)
          else some (mkRat mantissa (10 ^ (-texp).toNat))
      else none

/-- Parse the text accepted by Python `int(str)`: optional surrounding
whitespace, optional sign, one or more digits.  (Underscore digit grouping,
a Python nicety, is outside the model; no configuration in play uses it.) -/
def parsePyInt (s : String) : Option Int :=
  let cs := pyStrip s.data
  let (sign, cs) :=
    match cs with
    | '-' :: rest => ((-1 : Int), rest)
    | '+' :: rest => ((1 : Int), rest)
    | _ => ((1 : Int), cs)
  if cs.isEmpty ∨ ¬ cs.all Char.isDigit then none
  else some (sign * (digitsVal cs : Int))

/-- `decimal.Decimal(x)` on a deserialized value: strings are parsed as
decimal text (`InvalidOperation` on failure), integers and `bool`s convert
exactly, floats convert to their exact value, and any other type raises
`TypeError`. -/
def pyDecimal : JValue → Except PyError Rat
  | .str s =>
    match parseDecimal s with
    | some q => .ok q
    | none => .error .invalidOperation
  | .int i => .ok (i : Rat)
  | .float q => .ok q
  | .bool b => .ok (if b then 1 else 0)
  | _ => .error .typeError

/-- Python `previous_value + increment` with an `int` increment: numbers add
(a `bool` is an integer), any other left operand raises `TypeError`. -/
def pyAdd : JValue → Int → Except PyError JValue
  | .int a, inc => .ok (.int (a + inc))
  | .float q, inc => .ok (.float (q + (inc : Rat)))
  | .bool b, inc => .ok (.int ((if b then 1 else 0) + inc))
  | _, _ => .error .typeError

/-- Python `==` between a field value and a numeric expected value (the
right operand is always the result of `pyAdd`, hence `int` or `float`):
numbers compare by value across `int`/`float`/`bool`, every other left
operand compares unequal. -/
def pyNumEq : JValue → JValue → Bool
  | .int a, .int b => a = b
  | .int a, .float b => (a : Rat) = b
  | .float a, .int b => a = (b : Rat)
  | .float a, .float b => a = b
  | .bool a, .int b => (if a then 1 else 0 : Int) = b
  | .bool a, .float b => ((if a then 1 else 0 : Int) : Rat) = b
  | _, _ => false

/-- JSON whitespace. -/
def isJsonWs (c : Char) : Bool :=
  c = ' ' ∨ c = '\t' ∨ c = '\n' ∨ c = '\r'

/-- Skip JSON whitespace. -/
def skipWs : List Char → List Char
  | [] => []
  | c :: cs => if isJsonWs c then skipWs cs else c :: cs

/-- Hexadecimal digit value. -/
def hexVal (c : Char) : Option Nat :=
  if c.isDigit then some (c.toNat - 48)
  else if 'a' ≤ c ∧ c ≤ 'f' then some (c.toNat - 87)
  else if 'A' ≤ c ∧ c ≤ 'F' then some (c.toNat - 70)
  else none

/-- Body of a JSON string literal, after the opening quote: plain characters
and the escapes `\" \\ \/ \b \f \n \r \t \uXXXX` up to the closing quote.
(Surrogate-pair recombination of two `\u` escapes is outside the model; no
claim exercises it.) -/
def parseJStr : List Char → Option (String × List Char)
  | [] => none
  | '"' :: rest => some ("", rest)
  | '\\' :: esc =>
    match esc with
    | '"' :: rest => (parseJStr rest).map (fun p => ("\"" ++ p.1, p.2))
    | '\\' :: rest => (parseJStr rest).map (fun p => ("\\" ++ p.1, p.2))
    | '/' :: rest => (parseJStr rest).map (fun p => ("/" ++ p.1, p.2))
    | 'b' :: rest => (parseJStr rest).map (fun p => ("\x08" ++ p.1, p.2))
    | 'f' :: rest => (parseJStr rest).map (fun p => ("\x0c" ++ p.1, p.2))
    | 'n' :: rest => (parseJStr rest).map (fun p => ("\n" ++ p.1, p.2))
    | 'r' :: rest => (parseJStr rest).map (fun p => ("\r" ++ p.1, p.2))
    | 't' :: rest => (parseJStr rest).map (fun p => ("\t" ++ p.1, p.2))
    | 'u' :: a :: b :: c :: d :: rest =>
      match hexVal a, hexVal b, hexVal c, hexVal d with
      | some ha, some hb, some hc, some hd =>
        (parseJStr rest).map (fun p =>
          (String.mk [Char.ofNat (((ha * 16 + hb) * 16 + hc) * 16 + hd)] ++ p.1, p.2))
      | _, _, _, _ => none
    | _ => none
  | c :: rest => (parseJStr rest).map (fun p => (String.mk [c] ++ p.1, p.2))

/-- A JSON number token: `-? (0 | [1-9][0-9]*) (. [0-9]+)? ([eE][+-]?[0-9]+)?`.
An integer literal deserializes to a Python `int`, any literal with a fraction
or exponent to a `float` (carried as the exact rational value of the literal). -/
def parseJNum (cs : List Char) : Option (JValue × List Char) :=
  let (sign, cs1) :=
    match cs with
    | '-' :: rest => ((-1 : Int), rest)
    | _ => ((1 : Int), cs)
  let (ipart, cs2) := cs1.span Char.isDigit
  let intOk : Bool :=
    match ipart with
    | [] => false
    | ['0'] => true
    | '0' :: _ => false
    | _ => true
  if ¬ intOk then none
  else
    let (fpart, cs3) :=
      match cs2 with
      | '.' :: rest =>
        let (ds, r) := rest.span Char.isDigit
        if ds.isEmpty then ([], cs2) else (ds, r)
      | _ => ([], cs2)
    let fracPresent := ¬ fpart.isEmpty
    let fracBad : Bool :=
      match cs2 with
      | '.' :: rest => (rest.span Char.isDigit).1.isEmpty
      | _ => false
    if fracBad then none
    else
      match cs3 with
      | e :: rest =>
        if e = 'e' ∨ e = 'E' then
          let (esign, r1) :=
            match rest with
            | '-' :: r => ((-1 : Int), r)
            | '+' :: r => ((1 : Int), r)
            | _ => ((1 : Int), rest)
          let (eds, r2) := r1.span Char.isDigit
          if eds.isEmpty then none
          else
            let mant : Int := sign * (digitsVal (ipart ++ fpart) : Int)
            let texp : Int := esign * (digitsVal eds : Int) - (fpart.length : Int)
            if 0 ≤ texp then some (.float (mkRat (mant * 10 ^ texp.toNat) 1), r2)
            else some (.float (mkRat mant (10 ^ (-texp).toNat)), r2)
        else
          if fracPresent then
            some (.float (mkRat (sign * (digitsVal (ipart ++ fpart) : Int))
              (10 ^ fpart.length)), cs3)
          else some (.int (sign * (digitsVal ipart : Int)), cs3)
      | [] =>
        if fracPresent then
          some (.float (mkRat (sign * (digitsVal (ipart ++ fpart) : Int))
            (10 ^ fpart.length)), cs3)
        else some (.int (sign * (digitsVal ipart : Int)), cs3)

mutual
/-- Fuel-indexed recursive-descent parse of one JSON value (the fuel only
bounds recursion depth; `json_loads` supplies enough for its input). -/
def parseJVal : Nat → List Char → Option (JValue × List Char)
  | 0, _ => none
  | Nat.succ fuel, cs =>
    match skipWs cs with
    | '"' :: rest => (parseJStr rest).map (fun p => (.str p.1, p.2))
    | 't' :: 'r' :: 'u' :: 'e' :: rest => some (.bool true, rest)
    | 'f' :: 'a' :: 'l' :: 's' :: 'e' :: rest => some (.bool false, rest)
    | 'n' :: 'u' :: 'l' :: 'l' :: rest => some (.null, rest)
    | '[' :: rest =>
      (match skipWs rest with
       | ']' :: rest2 => some (.arr [], rest2)
       | _ => (parseJElems fuel rest).map (fun p => (.arr p.1, p.2)))
    | c :: rest =>
      if c = lbraceChar then
        match skipWs rest with
        | d :: rest2 =>
          if d = rbraceChar then some (.obj [], rest2)
          else (parseJMembers fuel (d :: rest2)).map (fun p => (.obj p.1, p.2))
        | [] => none
      else parseJNum (c :: rest)
    | [] => none

/-- One or more comma-separated `"key": value` members, consuming the
closing brace. -/
def parseJMembers : Nat → List Char → Option (List (String × JValue) × List Char)
  | 0, _ => none
  | Nat.succ fuel, cs =>
    match skipWs cs with
    | '"' :: rest =>
      match parseJStr rest with
      | none => none
      | some (key, rest2) =>
        match skipWs rest2 with
        | ':' :: rest3 =>
          match parseJVal fuel rest3 with
          | none => none
          | some (v, rest4) =>
            match skipWs rest4 with
            | ',' :: rest5 =>
              (parseJMembers fuel rest5).map (fun p => ((key, v) :: p.1, p.2))
            | d :: rest5 =>
              if d = rbraceChar then some ([(key, v)], rest5) else none
            | [] => none
        | _ => none
    | _ => none

/-- One or more comma-separated array elements, consuming the closing
bracket. -/
def parseJElems : Nat → List Char → Option (List JValue × List Char)
  | 0, _ => none
  | Nat.succ fuel, cs =>
    match parseJVal fuel cs with
    | none => none
    | some (v, rest) =>
      match skipWs rest with
      | ',' :: rest2 => (parseJElems fuel rest2).map (fun p => (v :: p.1, p.2))
      | ']' :: rest2 => some ([v], rest2)
      | _ => none
end

/-- `json.loads`: parse one JSON document, allowing surrounding whitespace
and nothing else; malformed input raises `json.JSONDecodeError`. -/
def json_loads (s : String) : Except PyError JValue :=
  match parseJVal (2 * s.length + 4) s.data with
  | some (v, rest) =>
    match skipWs rest with
    | [] => .ok v
    | _ => .error .jsonDecodeError
  | none => .error .jsonDecodeError

/-- `xs` contains `ys` as a contiguous substring (Python `ys in xs` on
strings). -/
def listContainsSeq (xs ys : List Char) : Bool :=
  match xs with
  | [] => ys.isEmpty
  | _ :: rest => ys.isPrefixOf xs ∨ listContainsSeq rest ys

namespace odevalidator

/-- `ValidationResult` (source lines 15-18): pass/fail flag plus message. -/
structure ValidationResult where
  valid : Bool
  error : String
deriving DecidableEq, Repr

/-- One `Field` rule (source lines 20-45) together with its mutable sequence
state: `previous_value = none` models the attribute not existing
(`hasattr(self, 'previous_value')` false). Absent optional constraints are
likewise `none` (`hasattr` false). -/
structure Field where
  path : String
  type : String
  upper_limit : Option Rat := none
  lower_limit : Option Rat := none
  values : Option JValue := none
  increment : Option Int := none
  equals_value : Option String := none
  previous_value : Option JValue := none

/-- `TYPE_TIMESTAMP` (source line 9). -/
def TYPE_TIMESTAMP : String := "timestamp"

/-- `Field._get_field_value` (source lines 47-55): split the path on `.`,
descend with `.get`, and turn an `AttributeError` into the library's
`ValidatorException` naming the path and the record. -/
def Field._get_field_value (f : Field) (data : JValue) : Except PyError JValue :=
  match getPath data (pathSplit f.path) with
  | .ok v => .ok v
  | .error _ =>
    .error (.validatorException
      ("Could not find field with path '" ++ f.path ++ "' in message: '" ++
        pyStr data ++ "'"))

/-- Check 1 (source lines 59-60): `field_value is None`. -/
def checkMissing (path : String) (fv : JValue) : Option ValidationResult :=
  match fv with
  | .null => some ⟨false, "Field '" ++ path ++ "' missing"⟩
  | _ => none

/-- Check 2 (source lines 61-62): `field_value == ""`. -/
def checkEmpty (path : String) (fv : JValue) : Option ValidationResult :=
  match fv with
  | .str "" => some ⟨false, "Field '" ++ path ++ "' empty"⟩
  | _ => none

/-- Check 3 (source lines 63-64): `Decimal(field_value) > self.upper_limit`.
`Decimal` may raise, which propagates out of `validate`. -/
def checkUpper (path : String) (ul : Option Rat) (fv : JValue) :
    Except PyError (Option ValidationResult) :=
  match ul with
  | none => .ok none
  | some limit =>
    match pyDecimal fv with
    | .error e => .error e
    | .ok q =>
      if limit < q then
        .ok (some ⟨false, "Field '" ++ path ++ "' value '" ++ fmtDec q ++
          "' is greater than upper limit '" ++ fmtDec limit ++ "'"⟩)
      else .ok none

/-- Check 4 (source lines 65-66): `Decimal(field_value) < self.lower_limit`. -/
def checkLower (path : String) (ll : Option Rat) (fv : JValue) :
    Except PyError (Option ValidationResult) :=
  match ll with
  | none => .ok none
  | some limit =>
    match pyDecimal fv with
    | .error e => .error e
    | .ok q =>
      if q < limit then
        .ok (some ⟨false, "Field '" ++ path ++ "' value '" ++ fmtDec q ++
          "' is less than lower limit '" ++ fmtDec limit ++ "'"⟩)
      else .ok none

/-- Python `x in container` for a string `x`: list membership compares `x`
against each element with `==` (true only for an equal string), dict
membership tests the keys, string membership is a substring test, and any
other container raises `TypeError`. -/
def pyInStr (s : String) : JValue → Except PyError Bool
  | .arr xs => .ok (xs.any (fun v => match v with | .str t => t = s | _ => false))
  | .obj m => .ok (m.any (fun kv => kv.1 = s))
  | .str t => .ok (listContainsSeq t.data s.data)
  | _ => .error .typeError

/-- Python iteration order of the container, as used by
`', '.join(map(str, self.values))`: list elements, dict keys, or the
characters of a string; anything else raises `TypeError`. -/
def pyIterStrs : JValue → Except PyError (List String)
  | .arr xs => .ok (xs.map pyStr)
  | .obj m => .ok (m.map (fun kv => kv.1))
  | .str t => .ok (t.data.map (fun c => String.mk [c]))
  | _ => .error .typeError

/-- Comma-space join, `', '.join(...)`. -/
def joinComma : List String → String
  | [] => ""
  | [s] => s
  | s :: rest => s ++ ", " ++ joinComma rest

/-- Check 5 (source lines 67-68): `str(field_value) not in self.values`. -/
def checkValues (path : String) (vals : Option JValue) (fv : JValue) :
    Except PyError (Option ValidationResult) :=
  match vals with
  | none => .ok none
  | some container =>
    match pyInStr (pyStr fv) container with
    | .error e => .error e
    | .ok true => .ok none
    | .ok false =>
      match pyIterStrs container with
      | .error e => .error e
      | .ok shown =>
        .ok (some ⟨false, "Field '" ++ path ++ "' value '" ++ pyStr fv ++
          "' not in list of known values: [" ++ joinComma shown ++ "]"⟩)

/-- Check 6 (source lines 69-70): `str(field_value) != str(self.equals_value)`
(`equals_value` is already a string, so `str` of it is itself). -/
def checkEquals (path : String) (ev : Option String) (fv : JValue) :
    Option ValidationResult :=
  match ev with
  | none => none
  | some expected =>
    if pyStr fv = expected then none
    else
      some ⟨false, "Field '" ++ path ++ "' value '" ++ pyStr fv ++
        "' did not equal expected value '" ++ expected ++ "'"⟩

/-- Check 7, the stateful increment check (source lines 71-78).  Returns the
failure result (if any) together with the new `previous_value` state.  Note
the source updates `previous_value` only on the very first call (baseline)
and inside the mismatch branch — a successful match leaves the stale baseline
in place. -/
def checkIncrement (path : String) (inc : Option Int) (prev : Option JValue)
    (fv : JValue) : Except PyError (Option ValidationResult × Option JValue) :=
  match inc with
  | none => .ok (none, prev)
  | some step =>
    match prev with
    | none => .ok (none, some fv)
    | some p =>
      match pyAdd p step with
      | .error e => .error e
      | .ok expected =>
        if pyNumEq fv expected then .ok (none, prev)
        else
          match fmtD fv with
          | .error e => .error e
          | .ok shownFv =>
            match fmtD expected with
            | .error e => .error e
            | .ok shownExp =>
              .ok (some ⟨false, "Field '" ++ path ++ "' successor value '" ++
                shownFv ++ "' did not match expected value '" ++ shownExp ++
                "', increment '" ++ toString step ++ "'"⟩, some fv)

/-- Check 8 (source lines 79-83): `dateutil.parser.parse(field_value)` inside
`try/except Exception`.  The parser is an external collaborator, passed in as
`ts : JValue → Option String` — `none` means the call succeeded, `some msg`
means it raised an exception whose `str()` is `msg` (a non-string argument
raises `TypeError`, also covered by `some msg` since the `except` catches
every exception). -/
def checkTimestamp (ts : JValue → Option String) (path : String) (ty : String)
    (fv : JValue) : Option ValidationResult :=
  if ty = TYPE_TIMESTAMP then
    match ts fv with
    | some errMsg =>
      some ⟨false, "Field '" ++ path ++
        "' value could not be parsed as a timestamp, error: " ++ errMsg⟩
    | none => none
  else none

/-- `Field.validate` (source lines 57-84): extract the value, run the checks
in source order with early return at the first failure, and return the
result together with the updated `Field` (its new `previous_value`). -/
def Field.validate (ts : JValue → Option String) (f : Field) (data : JValue) :
    Except PyError (ValidationResult × Field) :=
  match f._get_field_value data with
  | .error e => .error e
  | .ok fv =>
    match checkMissing f.path fv with
    | some r => .ok (r, f)
    | none =>
    match checkEmpty f.path fv with
    | some r => .ok (r, f)
    | none =>
    match checkUpper f.path f.upper_limit fv with
    | .error e => .error e
    | .ok (some r) => .ok (r, f)
    | .ok none =>
    match checkLower f.path f.lower_limit fv with
    | .error e => .error e
    | .ok (some r) => .ok (r, f)
    | .ok none =>
    match checkValues f.path f.values fv with
    | .error e => .error e
    | .ok (some r) => .ok (r, f)
    | .ok none =>
    match checkEquals f.path f.equals_value fv with
    | some r => .ok (r, f)
    | none =>
    match checkIncrement f.path f.increment f.previous_value fv with
    | .error e => .error e
    | .ok (res, pv) =>
      match res with
      | some r => .ok (r, { f with previous_value := pv })
      | none =>
        match checkTimestamp ts f.path f.type fv with
        | some r => .ok (r, { f with previous_value := pv })
        | none => .ok (⟨true, ""⟩, { f with previous_value := pv })

end odevalidator

namespace odevalidator

/-- A configuration section for one field: the option-mapping that
`configparser` hands to `Field.__init__` (keys to raw string values; the
collaborator-parsed on-disk syntax is out of scope). -/
def FieldOptions := List (String × String)

/-- `field.get(key)` on the option-mapping. -/
def optGet (opts : FieldOptions) (key : String) : Option String :=
  (opts.find? (fun kv => kv.1 = key)).map (fun kv => kv.2)

/-- String form of the option-mapping used in the missing-Path/Type error
messages (`"... for field '%s'" % field`).  `configparser` prints a section
proxy here; the embedding has no section name, so the assoc list is rendered
directly — no claim depends on this message's exact text. -/
def optsRepr (opts : FieldOptions) : String :=
  "\x7b" ++ joinComma (opts.map (fun kv => "'" ++ kv.1 ++ "': '" ++ kv.2 ++ "'")) ++ "\x7d"

/-- `UpperLimit`/`LowerLimit` handling in `Field.__init__` (source lines
31-36): absent stays absent, present text goes through `Decimal(text)`,
whose failure raises `decimal.InvalidOperation`. -/
def parseLimitOpt : Option String → Except PyError (Option Rat)
  | none => .ok none
  | some s =>
    match parseDecimal s with
    | some q => .ok (some q)
    | none => .error .invalidOperation

/-- `Values` handling (source lines 37-39): `json.loads(values)` if present. -/
def parseValuesOpt : Option String → Except PyError (Option JValue)
  | none => .ok none
  | some s =>
    match json_loads s with
    | .ok v => .ok (some v)
    | .error e => .error e

/-- `Increment` handling (source lines 40-42): `int(increment)` if present,
raising `ValueError` on bad text. -/
def parseIncrementOpt : Option String → Except PyError (Option Int)
  | none => .ok none
  | some s =>
    match parsePyInt s with
    | some i => .ok (some i)
    | none => .error .valueError

/-- `Field.__init__` (source lines 21-45): `Path` and `Type` are required
(missing either raises the library's `ValidatorException`), then the optional
constraints are coerced in source order — `UpperLimit`, `LowerLimit`,
`Values`, `Increment`, `EqualsValue` (`str` of a string is itself). -/
def Field.init (opts : FieldOptions) : Except PyError Field :=
  match optGet opts "Path" with
  | none =>
    .error (.validatorException
      ("Missing required configuration property 'Path' for field '" ++
        optsRepr opts ++ "'"))
  | some path =>
  match optGet opts "Type" with
  | none =>
    .error (.validatorException
      ("Missing required configuration property 'Type' for field '" ++
        optsRepr opts ++ "'"))
  | some ty =>
  match parseLimitOpt (optGet opts "UpperLimit") with
  | .error e => .error e
  | .ok ul =>
  match parseLimitOpt (optGet opts "LowerLimit") with
  | .error e => .error e
  | .ok ll =>
  match parseValuesOpt (optGet opts "Values") with
  | .error e => .error e
  | .ok vs =>
  match parseIncrementOpt (optGet opts "Increment") with
  | .error e => .error e
  | .ok inc =>
    .ok { path := path, type := ty, upper_limit := ul, lower_limit := ll,
          values := vs, increment := inc,
          equals_value := optGet opts "EqualsValue", previous_value := none }

/-- One entry of the per-record validation list built by `TestCase._validate`
(source lines 101-105): the dict `{'Field': ..., 'Valid': ..., 'Details': ...}`. -/
structure FieldValidation where
  field : String
  valid : Bool
  details : String
deriving DecidableEq, Repr

/-- One entry of the results list built by `TestCase.validate_queue` (source
lines 114-117): the dict `{'RecordID': ..., 'Validations': ...}`. -/
structure RecordReport where
  recordId : String
  validations : List FieldValidation
deriving DecidableEq, Repr

/-- The value returned by `TestCase.validate_queue` (source line 118):
`{'Results': results}`. -/
structure BatchReport where
  Results : List RecordReport
deriving DecidableEq, Repr

/-- `TestCase._validate` (source lines 97-106): evaluate every field rule
against the record, in `field_list` order, collecting one `FieldValidation`
per rule.  The mutation of each field's sequence state is returned as the
updated field list. -/
def TestCase._validate (ts : JValue → Option String) :
    List Field → JValue → Except PyError (List FieldValidation × List Field)
  | [], _ => .ok ([], [])
  | f :: fs, data =>
    match Field.validate ts f data with
    | .error e => .error e
    | .ok (r, f') =>
      match TestCase._validate ts fs data with
      | .error e => .error e
      | .ok (vs, fs') => .ok (⟨f.path, r.valid, r.error⟩ :: vs, f' :: fs')

/-- `current_msg['metadata']['serialId']['recordId']` (source line 112):
`dict[k]` raises `KeyError` on a missing key and `TypeError` on a
non-`dict`. -/
def pySubscript : JValue → String → Except PyError JValue
  | .obj m, k =>
    match assocGet m k with
    | some v => .ok v
    | none => .error (.keyError k)
  | _, _ => .error .typeError

/-- The record-identifier extraction of `validate_queue` (source line 112),
up to the `str(...)` conversion. -/
def extractRecordId (m : JValue) : Except PyError JValue :=
  match pySubscript m "metadata" with
  | .error e => .error e
  | .ok v1 =>
    match pySubscript v1 "serialId" with
    | .error e => .error e
    | .ok v2 => pySubscript v2 "recordId"

/-- `TestCase.validate_queue` (source lines 108-118): drain the queue in
order; for each serialized record run `json.loads`, extract and `str` the
record id, validate all fields, and append the record's report.  The queue
collaborator is modelled as the list of serialized records in drain order;
the evolving `field_list` is threaded through and returned. -/
def TestCase.validate_queue (ts : JValue → Option String) :
    List Field → List String → Except PyError (List RecordReport × List Field)
  | fields, [] => .ok ([], fields)
  | fields, msg :: msgs =>
    match json_loads msg with
    | .error e => .error e
    | .ok m =>
      match extractRecordId m with
      | .error e => .error e
      | .ok rid =>
        match TestCase._validate ts fields m with
        | .error e => .error e
        | .ok (vs, fields') =>
          match TestCase.validate_queue ts fields' msgs with
          | .error e => .error e
          | .ok (rest, fieldsF) =>
            .ok (⟨pyStr rid, vs⟩ :: rest, fieldsF)

/-- The batch report value returned to the caller of `validate_queue`
(source line 118), dropping the internal field-list state. -/
def TestCase.validate_queue_report (ts : JValue → Option String)
    (fields : List Field) (msgs : List String) : Except PyError BatchReport :=
  match TestCase.validate_queue ts fields msgs with
  | .error e => .error e
  | .ok (results, _) => .ok ⟨results⟩

/-- The record id a given serialized record yields (deserialize, extract,
`str`), independent of any validation state. -/
def recordIdOfMsg (msg : String) : Except PyError String :=
  match json_loads msg with
  | .error e => .error e
  | .ok m =>
    match extractRecordId m with
    | .error e => .error e
    | .ok rid => .ok (pyStr rid)

end odevalidator

namespace odevalidator

/-- A single constraint check as an element of the spec's ordered chain:
from the current sequence state it produces `none` (pass) or a failure
result, plus the new sequence state, or raises. -/
def Check : Type :=
  Option JValue → Except PyError (Option ValidationResult × Option JValue)

/-- Modelled from the spec: run checks "in this fixed order, short-circuiting
at the first failing check", and "if no check failed: valid, empty reason". -/
def runChecks : List Check → Option JValue → Except PyError (ValidationResult × Option JValue)
  | [], pv => .ok (⟨true, ""⟩, pv)
  | c :: cs, pv =>
    match c pv with
    | .error e => .error e
    | .ok (some r, pv') => .ok (r, pv')
    | .ok (none, pv') => runChecks cs pv'

/-- Modelled from the spec: the fixed check order of §4.3 — missing, empty
string, upper limit, lower limit, allowed values, equals value, increment,
timestamp.  Only the increment check touches the sequence state. -/
def specCheckList (ts : JValue → Option String) (f : Field) (fv : JValue) :
    List Check :=
  [fun pv => .ok (checkMissing f.path fv, pv),
   fun pv => .ok (checkEmpty f.path fv, pv),
   fun pv => (checkUpper f.path f.upper_limit fv).map (fun o => (o, pv)),
   fun pv => (checkLower f.path f.lower_limit fv).map (fun o => (o, pv)),
   fun pv => (checkValues f.path f.values fv).map (fun o => (o, pv)),
   fun pv => .ok (checkEquals f.path f.equals_value fv, pv),
   fun pv => checkIncrement f.path f.increment pv fv,
   fun pv => .ok (checkTimestamp ts f.path f.type fv, pv)]

end odevalidator

namespace odevalidator

/-- A timestamp collaborator that accepts everything (the demo fields below
have non-timestamp types, so it is never consulted). -/
def tsNone : JValue → Option String := fun _ => none

/-- Demo rule: `Path = v`, `Type = decimal`, `Increment = 1`. -/
def fIncDemo : Field := { path := "v", type := "decimal", increment := some 1 }

/-- `fIncDemo` after its baseline call on value `5`. -/
def fIncDemo5 : Field := { fIncDemo with previous_value := some (.int 5) }

/-- `fIncDemo` after a mismatching call on value `7`. -/
def fIncDemo7 : Field := { fIncDemo with previous_value := some (.int 7) }

/-- The record `{"v": n}`. -/
def recV (n : Int) : JValue := .obj [("v", .int n)]

/-- Demo rule: `UpperLimit = 100`. -/
def fUpDemo : Field := { path := "v", type := "decimal", upper_limit := some 100 }

/-- Demo rule: `LowerLimit = 100`. -/
def fLoDemo : Field := { path := "v", type := "decimal", lower_limit := some 100 }

/-- Demo rule with the two-key path `a.b`. -/
def fPathDemo : Field := { path := "a.b", type := "string" }

/-- Demo rule with the three-key path `a.b.c`. -/
def fPath3Demo : Field := { path := "a.b.c", type := "string" }

/-- Two serialized records with record ids `1` and `2` and field `v`. -/
def msgsDemo : List String :=
  ["\x7b\"metadata\": \x7b\"serialId\": \x7b\"recordId\": 1\x7d\x7d, \"v\": 5\x7d",
   "\x7b\"metadata\": \x7b\"serialId\": \x7b\"recordId\": 2\x7d\x7d, \"v\": 7\x7d"]

/-- Like `msgsDemo` but the second record carries the non-numeric value
`"abc"` in field `v`. -/
def msgsBadDemo : List String :=
  ["\x7b\"metadata\": \x7b\"serialId\": \x7b\"recordId\": 1\x7d\x7d, \"v\": 5\x7d",
   "\x7b\"metadata\": \x7b\"serialId\": \x7b\"recordId\": 2\x7d\x7d, \"v\": \"abc\"\x7d"]

/-- The batch report produced for `msgsDemo` under the single rule
`fIncDemo`. -/
def rptDemo : BatchReport :=
  match TestCase.validate_queue_report tsNone [fIncDemo] msgsDemo with
  | .ok r => r
  | .error _ => ⟨[]⟩

/-- Option-mapping whose `UpperLimit` entry is not valid decimal text. -/
def cfgBadUpper : FieldOptions :=
  [("Path", "v"), ("Type", "decimal"), ("UpperLimit", "abc")]

/-- Whether a construction outcome is a raised library `ValidatorException`. -/
def raisedValidatorException : Except PyError Field → Bool
  | .error (.validatorException _) => true
  | _ => false

/-- The result of validating `{"v": 100}` against `fUpDemo` (used to apply
theorems with result-shaped hypotheses at a concrete input). -/
def resUp100 : ValidationResult :=
  match Field.validate tsNone fUpDemo (recV 100) with
  | .ok (r, _) => r
  | .error _ => ⟨false, "unreachable"⟩

end odevalidator

namespace odevalidator

/-- The traversal loop over a concatenation of key lists runs the first part
and continues from its result. -/
theorem getPath_append (l1 l2 : List String) (v : JValue) :
    getPath v (l1 ++ l2) =
      match getPath v l1 with
      | .error e => .error e
      | .ok w => getPath w l2 := by
  induction l1 generalizing v with
  | nil => simp [getPath]
  | cons k ks ih =>
    simp only [List.cons_append, getPath]
    cases pyGetStep v k with
    | error e => rfl
    | ok w => exact ih w

/-- Every failure result produced by `checkMissing` is marked invalid. -/
theorem checkMissing_invalid (path : String) (fv : JValue) (r : ValidationResult)
    (h : checkMissing path fv = some r) : r.valid = false := by
  unfold checkMissing at h
  split at h
  · cases h; rfl
  · simp_all

/-- Every failure result produced by `checkEmpty` is marked invalid. -/
theorem checkEmpty_invalid (path : String) (fv : JValue) (r : ValidationResult)
    (h : checkEmpty path fv = some r) : r.valid = false := by
  unfold checkEmpty at h
  split at h
  · cases h; rfl
  · simp_all

/-- Every failure result produced by `checkUpper` is marked invalid. -/
theorem checkUpper_invalid (path : String) (ul : Option Rat) (fv : JValue)
    (r : ValidationResult) (h : checkUpper path ul fv = .ok (some r)) :
    r.valid = false := by
  unfold checkUpper at h
  repeat' split at h
  all_goals (try cases h)
  all_goals simp_all

/-- Every failure result produced by `checkLower` is marked invalid. -/
theorem checkLower_invalid (path : String) (ll : Option Rat) (fv : JValue)
    (r : ValidationResult) (h : checkLower path ll fv = .ok (some r)) :
    r.valid = false := by
  unfold checkLower at h
  repeat' split at h
  all_goals (try cases h)
  all_goals simp_all

/-- Every failure result produced by `checkValues` is marked invalid. -/
theorem checkValues_invalid (path : String) (vals : Option JValue) (fv : JValue)
    (r : ValidationResult) (h : checkValues path vals fv = .ok (some r)) :
    r.valid = false := by
  unfold checkValues at h
  repeat' split at h
  all_goals (try cases h)
  all_goals simp_all

/-- Every failure result produced by `checkEquals` is marked invalid. -/
theorem checkEquals_invalid (path : String) (ev : Option String) (fv : JValue)
    (r : ValidationResult) (h : checkEquals path ev fv = some r) :
    r.valid = false := by
  unfold checkEquals at h
  repeat' split at h
  all_goals (try cases h)
  all_goals simp_all

/-- Every failure result produced by `checkIncrement` is marked invalid. -/
theorem checkIncrement_invalid (path : String) (inc : Option Int)
    (prev : Option JValue) (fv : JValue) (r : ValidationResult) (pv : Option JValue)
    (h : checkIncrement path inc prev fv = .ok (some r, pv)) : r.valid = false := by
  unfold checkIncrement at h
  repeat' split at h
  all_goals (try simp_all)
  all_goals (obtain ⟨h1, h2⟩ := h; exact h1 ▸ rfl)

/-- Every failure result produced by `checkTimestamp` is marked invalid. -/
theorem checkTimestamp_invalid (ts : JValue → Option String) (path ty : String)
    (fv : JValue) (r : ValidationResult)
    (h : checkTimestamp ts path ty fv = some r) : r.valid = false := by
  unfold checkTimestamp at h
  repeat' split at h
  all_goals (try cases h)
  all_goals simp_all

end odevalidator

namespace odevalidator

/-- `Field.validate` is exactly the spec's ordered short-circuit chain: the
extracted value is pushed through the eight checks of §4.3 in order, the
sequence state is threaded through them, and the final `Field` carries the
resulting state. -/
theorem validate_eq_runChecks (ts : JValue → Option String) (f : Field) (data : JValue) :
    Field.validate ts f data =
      match f._get_field_value data with
      | .error e => .error e
      | .ok fv =>
        (runChecks (specCheckList ts f fv) f.previous_value).map
          (fun rp => (rp.1, { f with previous_value := rp.2 })) := by
  cases hg : f._get_field_value data with
  | error e => simp [Field.validate, hg]
  | ok fv =>
    cases h1 : checkMissing f.path fv with
    | some r => simp [Field.validate, hg, specCheckList, runChecks, h1, Except.map]
    | none =>
    cases h2 : checkEmpty f.path fv with
    | some r => simp [Field.validate, hg, specCheckList, runChecks, h1, h2, Except.map]
    | none =>
    cases h3 : checkUpper f.path f.upper_limit fv with
    | error e => simp [Field.validate, hg, specCheckList, runChecks, h1, h2, h3, Except.map]
    | ok o3 =>
    cases o3 with
    | some r => simp [Field.validate, hg, specCheckList, runChecks, h1, h2, h3, Except.map]
    | none =>
    cases h4 : checkLower f.path f.lower_limit fv with
    | error e => simp [Field.validate, hg, specCheckList, runChecks, h1, h2, h3, h4, Except.map]
    | ok o4 =>
    cases o4 with
    | some r => simp [Field.validate, hg, specCheckList, runChecks, h1, h2, h3, h4, Except.map]
    | none =>
    cases h5 : checkValues f.path f.values fv with
    | error e => simp [Field.validate, hg, specCheckList, runChecks, h1, h2, h3, h4, h5, Except.map]
    | ok o5 =>
    cases o5 with
    | some r => simp [Field.validate, hg, specCheckList, runChecks, h1, h2, h3, h4, h5, Except.map]
    | none =>
    cases h6 : checkEquals f.path f.equals_value fv with
    | some r => simp [Field.validate, hg, specCheckList, runChecks, h1, h2, h3, h4, h5, h6, Except.map]
    | none =>
    cases h7 : checkIncrement f.path f.increment f.previous_value fv with
    | error e => simp [Field.validate, hg, specCheckList, runChecks, h1, h2, h3, h4, h5, h6, h7, Except.map]
    | ok rp =>
    cases rp with
    | mk res pv =>
    cases res with
    | some r => simp [Field.validate, hg, specCheckList, runChecks, h1, h2, h3, h4, h5, h6, h7, Except.map]
    | none =>
    cases h8 : checkTimestamp ts f.path f.type fv with
    | some r => simp [Field.validate, hg, specCheckList, runChecks, h1, h2, h3, h4, h5, h6, h7, h8, Except.map]
    | none => simp [Field.validate, hg, specCheckList, runChecks, h1, h2, h3, h4, h5, h6, h7, h8, Except.map]

/-- If every check of a chain marks its failures invalid, then a valid
outcome of the chain carries the empty message. -/
theorem runChecks_valid_empty (cs : List Check)
    (hcs : ∀ c ∈ cs, ∀ pv r pv', c pv = .ok (some r, pv') → r.valid = false)
    (pv : Option JValue) (r : ValidationResult) (pv' : Option JValue)
    (h : runChecks cs pv = .ok (r, pv')) (hr : r.valid = true) : r.error = "" := by
  induction cs generalizing pv with
  | nil =>
    unfold runChecks at h
    cases h
    rfl
  | cons c cs ih =>
    unfold runChecks at h
    split at h
    · cases h
    · rename_i res pv0 heq
      cases h
      exact absurd (hcs c (List.mem_cons_self c cs) pv _ _ heq) (by simp [hr])
    · rename_i res pv0 heq
      exact ih (fun c' hc' => hcs c' (List.mem_cons_of_mem c hc')) pv0 h

/-- A chain of state-neutral checks (each returning its input state and a
state-independent outcome) gives a state-independent result and returns the
input state. -/
theorem runChecks_stateless (cs : List Check)
    (hcs : ∀ c ∈ cs, ∃ out : Except PyError (Option ValidationResult),
      ∀ pv, c pv = out.map (fun o => (o, pv)))
    (p q : Option JValue) :
    runChecks cs p = (runChecks cs q).map (fun rp => (rp.1, p)) := by
  induction cs generalizing p q with
  | nil => simp [runChecks, Except.map]
  | cons c cs ih =>
    obtain ⟨out, hout⟩ := hcs c (List.mem_cons_self c cs)
    have hrest : ∀ c' ∈ cs, ∃ out : Except PyError (Option ValidationResult),
        ∀ pv, c' pv = out.map (fun o => (o, pv)) :=
      fun c' hc' => hcs c' (List.mem_cons_of_mem c hc')
    unfold runChecks
    rw [hout p, hout q]
    cases out with
    | error e => simp [Except.map]
    | ok o =>
      cases o with
      | some r => simp [Except.map]
      | none => simpa [Except.map] using ih hrest p q

end odevalidator

namespace odevalidator

/-- `Field.validate` never changes the rule's path. -/
theorem validate_path_eq (ts : JValue → Option String) (f : Field) (data : JValue)
    (r : ValidationResult) (f' : Field)
    (h : Field.validate ts f data = .ok (r, f')) : f'.path = f.path := by
  unfold Field.validate at h
  repeat' split at h
  all_goals (try cases h)
  all_goals rfl

/-- `TestCase._validate` reports one entry per field rule, carrying the
rules' paths in rule order, and preserves the paths of the threaded rule
list. -/
theorem _validate_shape (ts : JValue → Option String) :
    ∀ (fs : List Field) (data : JValue) (vs : List FieldValidation) (fs' : List Field),
    TestCase._validate ts fs data = .ok (vs, fs') →
    vs.map (fun v => v.field) = fs.map (fun fl => fl.path) ∧
    fs'.map (fun fl => fl.path) = fs.map (fun fl => fl.path) := by
  intro fs
  induction fs with
  | nil =>
    intro data vs fs' h
    unfold TestCase._validate at h
    cases h
    simp
  | cons f fs ih =>
    intro data vs fs' h
    unfold TestCase._validate at h
    cases hval : Field.validate ts f data with
    | error e => simp [hval] at h
    | ok rf =>
      cases rf with
      | mk r f1 =>
        simp only [hval] at h
        cases hrec : TestCase._validate ts fs data with
        | error e => simp [hrec] at h
        | ok vfs =>
          cases vfs with
          | mk vs0 fs0 =>
            simp only [hrec] at h
            cases h
            obtain ⟨h1, h2⟩ := ih data vs0 fs0 hrec
            simp [h1, h2, validate_path_eq ts f data r f1 hval]

/-- Induction core for the batch claim: a normally returned queue run yields
one report per drained record, in drain order, each carrying that record's
extracted id and one validation per rule in rule order. -/
theorem validate_queue_shape (ts : JValue → Option String) :
    ∀ (fields : List Field) (msgs : List String) (reports : List RecordReport)
      (fieldsF : List Field),
    TestCase.validate_queue ts fields msgs = .ok (reports, fieldsF) →
    reports.length = msgs.length ∧
    ∀ i (hi : i < reports.length) (hm : i < msgs.length),
      recordIdOfMsg (msgs.get ⟨i, hm⟩) = .ok ((reports.get ⟨i, hi⟩).recordId) ∧
      (reports.get ⟨i, hi⟩).validations.map (fun v => v.field) =
        fields.map (fun fl => fl.path) := by
  intro fields msgs
  induction msgs generalizing fields with
  | nil =>
    intro reports fieldsF h
    unfold TestCase.validate_queue at h
    cases h
    exact ⟨rfl, fun i hi => absurd hi (by simp)⟩
  | cons msg msgs ih =>
    intro reports fieldsF h
    unfold TestCase.validate_queue at h
    cases hjson : json_loads msg with
    | error e => simp [hjson] at h
    | ok m =>
      simp only [hjson] at h
      cases hrid : extractRecordId m with
      | error e => simp [hrid] at h
      | ok rid =>
        simp only [hrid] at h
        cases hval : TestCase._validate ts fields m with
        | error e => simp [hval] at h
        | ok vfs =>
          cases vfs with
          | mk vs fields1 =>
            simp only [hval] at h
            cases hrec : TestCase.validate_queue ts fields1 msgs with
            | error e => simp [hrec] at h
            | ok rfin =>
              cases rfin with
              | mk rest fieldsF1 =>
                simp only [hrec] at h
                cases h
                obtain ⟨hlen, hidx⟩ := ih fields1 rest _ hrec
                obtain ⟨hvs, hpaths⟩ := _validate_shape ts fields m vs fields1 hval
                refine ⟨by simp [hlen], ?_⟩
                intro i hi hm
                cases i with
                | zero =>
                  refine ⟨?_, ?_⟩
                  · show recordIdOfMsg msg = .ok (pyStr rid)
                    simp [recordIdOfMsg, hjson, hrid]
                  · exact hvs
                | succ j =>
                  have hj : j < rest.length := by
                    simpa using hi
                  have hjm : j < msgs.length := by
                    simpa using hm
                  obtain ⟨hid, hmap⟩ := hidx j hj hjm
                  refine ⟨by simpa using hid, ?_⟩
                  have : (rest.get ⟨j, hj⟩).validations.map (fun v => v.field) =
                      fields1.map (fun fl => fl.path) := hmap
                  simpa [hpaths] using this

end odevalidator

namespace odevalidator

/-- Every check in the source-ordered chain marks its failures invalid. -/
theorem specCheckList_all_invalid (ts : JValue → Option String) (f : Field) (fv : JValue) :
    ∀ c ∈ specCheckList ts f fv, ∀ pv r pv', c pv = .ok (some r, pv') → r.valid = false := by
  intro c hc pv r pv' h
  simp only [specCheckList, List.mem_cons, List.not_mem_nil, or_false] at hc
  rcases hc with hc | hc | hc | hc | hc | hc | hc | hc <;> subst hc <;> dsimp only at h
  · simp only [Except.ok.injEq, Prod.mk.injEq] at h
    exact checkMissing_invalid f.path fv r h.1
  · simp only [Except.ok.injEq, Prod.mk.injEq] at h
    exact checkEmpty_invalid f.path fv r h.1
  · cases hu : checkUpper f.path f.upper_limit fv with
    | error e => rw [hu] at h; simp [Except.map] at h
    | ok o =>
      rw [hu] at h
      simp only [Except.map, Except.ok.injEq, Prod.mk.injEq] at h
      exact checkUpper_invalid f.path f.upper_limit fv r (h.1 ▸ hu)
  · cases hl : checkLower f.path f.lower_limit fv with
    | error e => rw [hl] at h; simp [Except.map] at h
    | ok o =>
      rw [hl] at h
      simp only [Except.map, Except.ok.injEq, Prod.mk.injEq] at h
      exact checkLower_invalid f.path f.lower_limit fv r (h.1 ▸ hl)
  · cases hv : checkValues f.path f.values fv with
    | error e => rw [hv] at h; simp [Except.map] at h
    | ok o =>
      rw [hv] at h
      simp only [Except.map, Except.ok.injEq, Prod.mk.injEq] at h
      exact checkValues_invalid f.path f.values fv r (h.1 ▸ hv)
  · simp only [Except.ok.injEq, Prod.mk.injEq] at h
    exact checkEquals_invalid f.path f.equals_value fv r h.1
  · exact checkIncrement_invalid f.path f.increment pv fv r pv' h
  · simp only [Except.ok.injEq, Prod.mk.injEq] at h
    exact checkTimestamp_invalid ts f.path f.type fv r h.1

/-- When no increment constraint is configured, every check in the chain is
state-neutral: it returns its input state and an outcome independent of it. -/
theorem specCheckList_stateless (ts : JValue → Option String) (f : Field) (fv : JValue)
    (hInc : f.increment = none) :
    ∀ c ∈ specCheckList ts f fv, ∃ out : Except PyError (Option ValidationResult),
      ∀ pv, c pv = out.map (fun o => (o, pv)) := by
  intro c hc
  simp only [specCheckList, List.mem_cons, List.not_mem_nil, or_false] at hc
  rcases hc with hc | hc | hc | hc | hc | hc | hc | hc <;> subst hc
  · exact ⟨.ok (checkMissing f.path fv), fun pv => rfl⟩
  · exact ⟨.ok (checkEmpty f.path fv), fun pv => rfl⟩
  · exact ⟨checkUpper f.path f.upper_limit fv, fun pv => rfl⟩
  · exact ⟨checkLower f.path f.lower_limit fv, fun pv => rfl⟩
  · exact ⟨checkValues f.path f.values fv, fun pv => rfl⟩
  · exact ⟨.ok (checkEquals f.path f.equals_value fv), fun pv => rfl⟩
  · exact ⟨.ok none, fun pv => by rw [hInc]; rfl⟩
  · exact ⟨.ok (checkTimestamp ts f.path f.type fv), fun pv => rfl⟩

end odevalidator

namespace odevalidator

/-- C1: for a rule with `Increment = 1`, the claim says feeding `5, 6, 7`
yields three valid results.  The code disagrees: `previous_value` is only
assigned on the baseline call and in the mismatch branch, so after the
passing call on `6` the baseline is still `5` and the call on `7` is
(wrongly) invalid — the conjuncts below evaluate the code on the exact
sequence, giving valid, valid, invalid.  The claim's second half does hold:
conjuncts one and three are exactly the `5` then `7` run, whose second
result is invalid and names the expected successor `6`. -/
theorem spec_c1 :
    Field.validate tsNone fIncDemo (recV 5) = .ok (⟨true, ""⟩, fIncDemo5) ∧
    Field.validate tsNone fIncDemo5 (recV 6) = .ok (⟨true, ""⟩, fIncDemo5) ∧
    Field.validate tsNone fIncDemo5 (recV 7) =
      .ok (⟨false, "Field 'v' successor value '7' did not match expected value '6', increment '1'"⟩,
        fIncDemo7) :=
  ⟨rfl, rfl, rfl⟩

/-- C2: the claim says every post-baseline call that reaches the increment
check updates `previous_value` to the current value before returning.  The
code updates it only in the mismatch branch: the call on `6` below passes
the successor check (`6 = 5 + 1`) and returns with `previous_value` still
`5`, not `6`. -/
theorem spec_c2 :
    Field.validate tsNone fIncDemo5 (recV 6) = .ok (⟨true, ""⟩, fIncDemo5) ∧
    fIncDemo5.previous_value = some (.int 5) ∧
    fIncDemo5.previous_value ≠ some (.int 6) := by
  refine ⟨rfl, rfl, ?_⟩
  intro h
  simp only [fIncDemo5, fIncDemo, Option.some.injEq, JValue.int.injEq] at h
  omega

/-- C5: with `UpperLimit = 100` the value `100` validates (boundary
inclusive) and `101` does not; symmetrically for `LowerLimit = 100` the
value `100` validates and `99` does not.  The comparison is exact decimal
arithmetic: the final conjunct feeds `100.00000000000000000000001`, which an
IEEE double would round to `100.0`, and the exact comparison correctly
rejects it (the `%d` formatting in the message truncates the shown value to
`100`). -/
theorem spec_c5 :
    Field.validate tsNone fUpDemo (recV 100) = .ok (⟨true, ""⟩, fUpDemo) ∧
    Field.validate tsNone fUpDemo (recV 101) =
      .ok (⟨false, "Field 'v' value '101' is greater than upper limit '100'"⟩, fUpDemo) ∧
    Field.validate tsNone fLoDemo (recV 100) = .ok (⟨true, ""⟩, fLoDemo) ∧
    Field.validate tsNone fLoDemo (recV 99) =
      .ok (⟨false, "Field 'v' value '99' is less than lower limit '100'"⟩, fLoDemo) ∧
    Field.validate tsNone fUpDemo (.obj [("v", .str "100.00000000000000000000001")]) =
      .ok (⟨false, "Field 'v' value '100' is greater than upper limit '100'"⟩, fUpDemo) :=
  ⟨rfl, rfl, rfl, rfl, rfl⟩

/-- C6 counterexample: constructing a rule whose `UpperLimit` text is not
valid decimal does abort construction, but with `decimal.InvalidOperation`
raised by `Decimal('abc')` — not with the library's `ValidatorException`
(the exception the claim calls the library's configuration error). -/
theorem spec_c6_counterexample :
    Field.init cfgBadUpper = .error .invalidOperation ∧
    raisedValidatorException (Field.init cfgBadUpper) = false :=
  ⟨rfl, rfl⟩

/-- C6 as amended: constructing a Field Rule from an option-mapping with
valid `Path` and `Type` whose `UpperLimit` (resp. `LowerLimit`, when
`UpperLimit` itself parses) entry is present but is not valid decimal text
fails construction by raising an exception — `decimal.InvalidOperation`
from the decimal parser, not the library's `ValidatorException` — before
any record is processed (construction is a pure function evaluated before
any `validate` call). -/
theorem spec_c6 :
    (∀ (opts : FieldOptions) (path ty ul : String),
      optGet opts "Path" = some path → optGet opts "Type" = some ty →
      optGet opts "UpperLimit" = some ul → parseDecimal ul = none →
      Field.init opts = .error .invalidOperation) ∧
    (∀ (opts : FieldOptions) (path ty ll : String),
      optGet opts "Path" = some path → optGet opts "Type" = some ty →
      (∀ s, optGet opts "UpperLimit" = some s → (parseDecimal s).isSome) →
      optGet opts "LowerLimit" = some ll → parseDecimal ll = none →
      Field.init opts = .error .invalidOperation) := by
  constructor
  · intro opts path ty ul hP hT hU hparse
    simp [Field.init, hP, hT, hU, parseLimitOpt, hparse]
  · intro opts path ty ll hP hT hUok hL hparse
    cases hU : optGet opts "UpperLimit" with
    | none => simp [Field.init, hP, hT, hU, hL, parseLimitOpt, hparse]
    | some s =>
      obtain ⟨q, hq⟩ := Option.isSome_iff_exists.mp (hUok s hU)
      simp [Field.init, hP, hT, hU, hL, parseLimitOpt, hq, hparse]

/-- C6 witness: the amended theorem applied to the concrete bad
configuration `cfgBadUpper` (and its lower-limit twin). -/
theorem spec_c6_witness :
    Field.init cfgBadUpper = .error .invalidOperation ∧
    Field.init [("Path", "v"), ("Type", "decimal"), ("LowerLimit", "abc")] =
      .error .invalidOperation := by
  constructor
  · exact spec_c6.1 cfgBadUpper "v" "decimal" "abc" rfl rfl rfl rfl
  · exact spec_c6.2 [("Path", "v"), ("Type", "decimal"), ("LowerLimit", "abc")]
      "v" "decimal" "abc" rfl rfl (fun s hs => by cases hs) rfl rfl

end odevalidator

namespace odevalidator

/-- C4: if some intermediate value along the dotted path is not a mapping,
evaluation of the record aborts with the library's `ValidatorException`
naming the path and the record (first conjunct, for any split of the key
list with keys still remaining at a non-`dict` value); if only the final
key is absent, extraction yields the missing marker and `validate` returns
the invalid "missing" result instead of raising (second conjunct). -/
theorem spec_c4 :
    (∀ (ts : JValue → Option String) (f : Field) (data : JValue)
       (ks1 ks2 : List String) (v : JValue),
      pathSplit f.path = ks1 ++ ks2 → ks2 ≠ [] → getPath data ks1 = .ok v →
      (∀ m, v ≠ .obj m) →
      Field.validate ts f data = .error (.validatorException
        ("Could not find field with path '" ++ f.path ++ "' in message: '" ++
          pyStr data ++ "'"))) ∧
    (∀ (ts : JValue → Option String) (f : Field) (data : JValue)
       (ks1 : List String) (k : String) (mm : List (String × JValue)),
      pathSplit f.path = ks1 ++ [k] → getPath data ks1 = .ok (.obj mm) →
      assocGet mm k = none →
      Field.validate ts f data =
        .ok (⟨false, "Field '" ++ f.path ++ "' missing"⟩, f)) := by
  constructor
  · intro ts f data ks1 ks2 v hsplit hne hget hnotobj
    have hstep : getPath data (pathSplit f.path) = .error .attributeError := by
      rw [hsplit, getPath_append, hget]
      cases ks2 with
      | nil => exact absurd rfl hne
      | cons k ks =>
        cases v with
        | obj m => exact absurd rfl (hnotobj m)
        | arr xs => rfl
        | str s => rfl
        | int i => rfl
        | float q => rfl
        | bool b => rfl
        | null => rfl
    have hfv : f._get_field_value data = .error (.validatorException
        ("Could not find field with path '" ++ f.path ++ "' in message: '" ++
          pyStr data ++ "'")) := by
      unfold Field._get_field_value
      rw [hstep]
    simp [Field.validate, hfv]
  · intro ts f data ks1 k mm hsplit hget hmiss
    have hstep : getPath data (pathSplit f.path) = .ok .null := by
      rw [hsplit, getPath_append, hget]
      simp [getPath, pyGetStep, hmiss]
    have hfv : f._get_field_value data = .ok .null := by
      unfold Field._get_field_value
      rw [hstep]
    simp [Field.validate, hfv, checkMissing]

/-- C4 witness: the concrete two-key rule `a.b` applied to a record where
`a` holds the non-mapping `5` (traversal error) and to a record where `a`
is a mapping without key `b` (missing result). -/
theorem spec_c4_witness :
    Field.validate tsNone fPathDemo (.obj [("a", .int 5)]) =
      .error (.validatorException
        "Could not find field with path 'a.b' in message: '\x7b'a': 5\x7d'") ∧
    Field.validate tsNone fPathDemo (.obj [("a", .obj [("c", .int 1)])]) =
      .ok (⟨false, "Field 'a.b' missing"⟩, fPathDemo) := by
  constructor
  · exact spec_c4.1 tsNone fPathDemo (.obj [("a", .int 5)]) ["a"] ["b"] (.int 5)
      rfl (by simp) rfl (fun m h => JValue.noConfusion h)
  · exact spec_c4.2 tsNone fPathDemo (.obj [("a", .obj [("c", .int 1)])])
      ["a"] "b" [("c", .int 1)] rfl rfl rfl

/-- C10: if a *non-final* key of the dotted path is absent (so the
intermediate lookup yields the missing marker, Python `None`), the next
step's `.get` raises and `validate` aborts with the traversal
`ValidatorException` rather than producing the "missing field" result. -/
theorem spec_c10 :
    ∀ (ts : JValue → Option String) (f : Field) (data : JValue)
      (ks1 : List String) (k : String) (ks2 : List String)
      (mm : List (String × JValue)),
    pathSplit f.path = ks1 ++ k :: ks2 → ks2 ≠ [] →
    getPath data ks1 = .ok (.obj mm) → assocGet mm k = none →
    Field.validate ts f data = .error (.validatorException
      ("Could not find field with path '" ++ f.path ++ "' in message: '" ++
        pyStr data ++ "'")) := by
  intro ts f data ks1 k ks2 mm hsplit hne hget hmiss
  have hstep : getPath data (pathSplit f.path) = .error .attributeError := by
    rw [hsplit, getPath_append, hget]
    show getPath (.obj mm) (k :: ks2) = .error .attributeError
    unfold getPath
    simp only [pyGetStep, hmiss, Option.getD]
    cases ks2 with
    | nil => exact absurd rfl hne
    | cons k2 ks => rfl
  have hfv : f._get_field_value data = .error (.validatorException
      ("Could not find field with path '" ++ f.path ++ "' in message: '" ++
        pyStr data ++ "'")) := by
    unfold Field._get_field_value
    rw [hstep]
  simp [Field.validate, hfv]

/-- C10 witness: rule `a.b.c` on a record whose `a` is a mapping without
key `b` — the call raises the traversal exception instead of reporting a
missing field. -/
theorem spec_c10_witness :
    Field.validate tsNone fPath3Demo (.obj [("a", .obj [("x", .int 1)])]) =
      .error (.validatorException
        "Could not find field with path 'a.b.c' in message: '\x7b'a': \x7b'x': 1\x7d\x7d'") := by
  exact spec_c10 tsNone fPath3Demo (.obj [("a", .obj [("x", .int 1)])])
    ["a"] "b" ["c"] [("x", .int 1)] rfl (by simp) rfl rfl

end odevalidator

namespace odevalidator

/-- C3: whenever the batch call returns normally on a queue of `N` records,
the report's `Results` list has exactly `N` entries, in drain order; the
`i`-th entry carries the id extracted from `metadata.serialId.recordId` of
the `i`-th record, and one validation per configured rule, in rule-set
construction order (the rules' paths, in order). -/
theorem spec_c3 (ts : JValue → Option String) (fields : List Field)
    (msgs : List String) (rpt : BatchReport)
    (h : TestCase.validate_queue_report ts fields msgs = .ok rpt) :
    rpt.Results.length = msgs.length ∧
    ∀ i (hi : i < rpt.Results.length) (hm : i < msgs.length),
      recordIdOfMsg (msgs.get ⟨i, hm⟩) = .ok ((rpt.Results.get ⟨i, hi⟩).recordId) ∧
      (rpt.Results.get ⟨i, hi⟩).validations.map (fun v => v.field) =
        fields.map (fun fl => fl.path) := by
  unfold TestCase.validate_queue_report at h
  cases hq : TestCase.validate_queue ts fields msgs with
  | error e => simp [hq] at h
  | ok p =>
    cases p with
    | mk results fieldsF =>
      simp only [hq] at h
      cases h
      exact validate_queue_shape ts fields msgs results fieldsF hq

/-- C3 witness: the two-record demo queue under the single demo rule gives
a two-entry report whose first entry carries record id `"1"` and one
validation for path `v`. -/
theorem spec_c3_witness :
    rptDemo.Results.length = msgsDemo.length ∧
    recordIdOfMsg (msgsDemo.get ⟨0, by decide⟩) =
      .ok ((rptDemo.Results.get ⟨0, by decide⟩).recordId) := by
  have h := spec_c3 tsNone [fIncDemo] msgsDemo rptDemo rfl
  exact ⟨h.1, (h.2 0 (by decide) (by decide)).1⟩

end odevalidator

namespace odevalidator

/-- C7: per record, `validate` is exactly the fixed chain missing, empty,
upper limit, lower limit, allowed values, equals value, increment,
timestamp, short-circuiting at the first failure (first conjunct, an
unconditional equation); every check before the increment check is
state-neutral, so an earlier failure leaves the sequence state untouched
(second conjunct); and a valid result is only ever returned with the empty
reason (third conjunct). -/
theorem spec_c7 (ts : JValue → Option String) (f : Field) (data : JValue) :
    (Field.validate ts f data =
      match f._get_field_value data with
      | .error e => .error e
      | .ok fv =>
        (runChecks (specCheckList ts f fv) f.previous_value).map
          (fun rp => (rp.1, { f with previous_value := rp.2 }))) ∧
    (∀ (fv : JValue), ∀ c ∈ (specCheckList ts f fv).take 6,
      ∀ (pv : Option JValue) (res : Option ValidationResult) (pv' : Option JValue),
        c pv = .ok (res, pv') → pv' = pv) ∧
    (∀ (r : ValidationResult) (f' : Field),
      Field.validate ts f data = .ok (r, f') → r.valid = true → r.error = "") := by
  refine ⟨validate_eq_runChecks ts f data, ?_, ?_⟩
  · intro fv c hc pv res pv' h
    simp only [specCheckList, List.take_succ_cons, List.take_zero,
      List.mem_cons, List.not_mem_nil, or_false] at hc
    rcases hc with hc | hc | hc | hc | hc | hc <;> subst hc <;> dsimp only at h
    · simp only [Except.ok.injEq, Prod.mk.injEq] at h
      exact h.2.symm
    · simp only [Except.ok.injEq, Prod.mk.injEq] at h
      exact h.2.symm
    · cases hu : checkUpper f.path f.upper_limit fv with
      | error e => rw [hu] at h; simp [Except.map] at h
      | ok o =>
        rw [hu] at h
        simp only [Except.map, Except.ok.injEq, Prod.mk.injEq] at h
        exact h.2.symm
    · cases hl : checkLower f.path f.lower_limit fv with
      | error e => rw [hl] at h; simp [Except.map] at h
      | ok o =>
        rw [hl] at h
        simp only [Except.map, Except.ok.injEq, Prod.mk.injEq] at h
        exact h.2.symm
    · cases hv : checkValues f.path f.values fv with
      | error e => rw [hv] at h; simp [Except.map] at h
      | ok o =>
        rw [hv] at h
        simp only [Except.map, Except.ok.injEq, Prod.mk.injEq] at h
        exact h.2.symm
    · simp only [Except.ok.injEq, Prod.mk.injEq] at h
      exact h.2.symm
  · intro r f' h hv
    rw [validate_eq_runChecks ts f data] at h
    cases hg : f._get_field_value data with
    | error e => simp [hg] at h
    | ok fv =>
      simp only [hg] at h
      cases hr : runChecks (specCheckList ts f fv) f.previous_value with
      | error e => rw [hr] at h; simp [Except.map] at h
      | ok rp =>
        cases rp with
        | mk r0 pv0 =>
          rw [hr] at h
          simp only [Except.map, Except.ok.injEq, Prod.mk.injEq] at h
          obtain ⟨hr0, _⟩ := h
          subst hr0
          exact runChecks_valid_empty (specCheckList ts f fv)
            (specCheckList_all_invalid ts f fv) f.previous_value r0 pv0 hr hv

/-- C7 witness: the chain equation and the valid-implies-empty-reason
conclusion applied at the concrete upper-limit rule on `{"v": 100}`. -/
theorem spec_c7_witness :
    Field.validate tsNone fUpDemo (recV 100) = .ok (resUp100, fUpDemo) ∧
    resUp100.valid = true ∧ resUp100.error = "" :=
  ⟨rfl, rfl, (spec_c7 tsNone fUpDemo (recV 100)).2.2 resUp100 fUpDemo rfl rfl⟩

end odevalidator

namespace odevalidator

/-- C8: for a rule with no increment constraint, evaluation reads no mutable
state and writes none — the outcome is independent of `previous_value` and
the rule comes back unchanged (first conjunct), hence a second call on the
same record returns the identical result (second conjunct). -/
theorem spec_c8 (ts : JValue → Option String) (f : Field) (data : JValue)
    (hInc : f.increment = none) :
    (∀ p, Field.validate ts { f with previous_value := p } data =
      (Field.validate ts f data).map
        (fun rf => (rf.1, { f with previous_value := p }))) ∧
    (∀ (r : ValidationResult) (f' : Field),
      Field.validate ts f data = .ok (r, f') →
      f' = f ∧ Field.validate ts f' data = .ok (r, f')) := by
  have key : ∀ p, Field.validate ts { f with previous_value := p } data =
      (Field.validate ts f data).map
        (fun rf => (rf.1, { f with previous_value := p })) := by
    intro p
    rw [validate_eq_runChecks ts { f with previous_value := p } data,
      validate_eq_runChecks ts f data]
    have hfv : Field._get_field_value { f with previous_value := p } data =
        Field._get_field_value f data := rfl
    rw [hfv]
    cases hg : f._get_field_value data with
    | error e => rfl
    | ok fv =>
      have hcs : specCheckList ts { f with previous_value := p } fv =
          specCheckList ts f fv := rfl
      simp only
      rw [hcs, runChecks_stateless (specCheckList ts f fv)
        (specCheckList_stateless ts f fv hInc) p f.previous_value]
      cases runChecks (specCheckList ts f fv) f.previous_value with
      | error e => rfl
      | ok rp => rfl
  refine ⟨key, ?_⟩
  intro r f' h
  have h2 := key f.previous_value
  have heta : ({ f with previous_value := f.previous_value } : Field) = f := rfl
  rw [heta, h] at h2
  injection h2 with h3
  have hff : f' = f := congrArg Prod.snd h3
  subst hff
  exact ⟨rfl, h⟩

/-- C8 witness: the repeat-call conclusion applied to the concrete
upper-limit rule (no increment) on `{"v": 100}`. -/
theorem spec_c8_witness :
    fUpDemo.increment = none ∧
    Field.validate tsNone fUpDemo (recV 100) = .ok (resUp100, fUpDemo) :=
  ⟨rfl, ((spec_c8 tsNone fUpDemo (recV 100) rfl).2 resUp100 fUpDemo rfl).2⟩

/-- C9: with an upper or lower limit configured, a present, non-empty field
value that is a non-numeric string makes `validate` raise
`decimal.InvalidOperation` instead of returning an invalid result (first
conjunct); consequently one such record aborts the whole batch call, as the
concrete two-record queue shows (second conjunct). -/
theorem spec_c9 :
    (∀ (ts : JValue → Option String) (f : Field) (data : JValue) (s : String),
      (f.upper_limit ≠ none ∨ f.lower_limit ≠ none) →
      f._get_field_value data = .ok (.str s) → s ≠ "" → parseDecimal s = none →
      Field.validate ts f data = .error .invalidOperation) ∧
    TestCase.validate_queue tsNone [fUpDemo] msgsBadDemo =
      .error .invalidOperation := by
  constructor
  · intro ts f data s hlim hget hs hparse
    have hMiss : checkMissing f.path (.str s) = none := rfl
    have hEmp : checkEmpty f.path (.str s) = none := by
      unfold checkEmpty
      split
      · rename_i heq
        injection heq with heq
        exact absurd heq hs
      · rfl
    have hDec : pyDecimal (.str s) = .error .invalidOperation := by
      simp [pyDecimal, hparse]
    rw [validate_eq_runChecks ts f data, hget]
    cases hu : f.upper_limit with
    | some limit =>
      simp [runChecks, specCheckList, hMiss, hEmp, checkUpper, hu, hDec, Except.map]
    | none =>
      cases hl : f.lower_limit with
      | some limit =>
        simp [runChecks, specCheckList, hMiss, hEmp, checkUpper, checkLower,
          hu, hl, hDec, Except.map]
      | none =>
        rcases hlim with h | h
        · exact absurd hu h
        · exact absurd hl h
  · rfl

/-- C9 witness: the field-level conclusion applied to the concrete
upper-limit rule and the record `{"v": "abc"}`. -/
theorem spec_c9_witness :
    Field.validate tsNone fUpDemo (.obj [("v", .str "abc")]) =
      .error .invalidOperation := by
  exact spec_c9.1 tsNone fUpDemo (.obj [("v", .str "abc")]) "abc"
    (Or.inl (by simp [fUpDemo])) rfl (by decide) rfl

end odevalidator
